import Mathlib

/-!
Shallow embedding of the 6502 simulator/assembler (6502sim.js).

Memory is an array of 65536 cells, each holding a byte or the JavaScript
`undefined` marker (modelled as `Option Nat`).  JavaScript coerces
`undefined` to 0 inside bitwise operators, which we model explicitly with
`toNum`.  Numbers that can go negative in the source (branch displacements,
SBC differences, twos-complement helpers) are modelled as `Int`, with the
32-bit reinterpretation JavaScript applies inside bitwise operators made
explicit (`toUint32`).
-/

namespace Sim6502

/-- Memory of the simulator: a cell holds a byte or the `undefined` marker. -/
def Mem : Type := Nat → Option Nat

/-- JavaScript coercion of a possibly-undefined cell inside a bitwise
operator: `ToInt32(undefined) = 0`. -/
def toNum : Option Nat → Nat
  | none => 0
  | some b => b

/-- JavaScript 32-bit unsigned reinterpretation of a number, as applied by
the bitwise operators to (possibly negative) integers. -/
def toUint32 (x : Int) : Nat := (x.emod 4294967296).toNat

/-- JavaScript bitwise NOT on a 32-bit integer: `~x = -x - 1`. -/
def jsNot (x : Int) : Int := -x - 1

/-- memoryObj.readWord: `mem[addr] | (mem[addr+1] << 8)`; an undefined cell
contributes 0 because `|` coerces `undefined` to 0. -/
def readWord (m : Mem) (addr : Nat) : Nat :=
  toNum (m addr) ||| (toNum (m (addr + 1)) <<< 8)

/-- memoryObj.writeByte with an explicit address: stores `v & 0xff`.
Writes to memory-mapped cells (0x0200-0x06B1) additionally notify external
collaborators (screen, beeper); no claim below touches those addresses. -/
def writeByteMem (m : Mem) (v addr : Nat) : Mem :=
  fun c => if c = addr then some (v &&& 255) else m c

/-- memoryObj.writeWord with an explicit address: stores `v & 0xff` at
`addr` and `(v >> 8) & 0xff` at `addr+1`. -/
def writeWordMem (m : Mem) (v addr : Nat) : Mem :=
  fun c =>
    if c = addr then some (v &&& 255)
    else if c = addr + 1 then some ((v >>> 8) &&& 255)
    else m c

/-- Programmer-visible machine state: memory, PC, registers A/X/Y, the
stack pointer and the processor status byte P (PObj.flags). -/
structure MachineState where
  mem : Mem
  pc : Nat
  a : Nat
  x : Nat
  y : Nat
  sp : Nat
  flags : Nat

/-- PObj: power-on / reset value of the flags, `36` (I flag and bit 5). -/
def flagsReset : Nat := 36

/-- PObj.setBit: sets the vth bit of the flags; out-of-range bit numbers
leave the flags unchanged (the source returns `false` without mutating). -/
def setBit (flags v : Nat) : Nat :=
  if v > 7 then flags else flags ||| 2 ^ v

/-- PObj.clearBit: `flags & (~Math.pow(2,v))`, with the 32-bit complement
of the mask written out; out-of-range bit numbers leave flags unchanged. -/
def clearBit (flags v : Nat) : Nat :=
  if v > 7 then flags else flags &&& (4294967295 - 2 ^ v)

/-- PObj.setFlagsTo: replaces the flags byte wholesale (used by PLP/RTI). -/
def setFlagsTo (v : Nat) : Nat := v

/-- PObj.setZN: first the N update (`|= 0xa0` when bit 7 of the 32-bit view
of `v` is set, else `&= 0x7f`), then the Z update (`|= 0x02` when `v == 0`,
else `&= 0xfd`).  The argument may be negative (CMP/SBC pass differences). -/
def setZN (flags : Nat) (v : Int) : Nat :=
  let f1 := if 0 < toUint32 v &&& 128 then flags ||| 0xa0 else flags &&& 0x7f
  if v = 0 then f1 ||| 0x02 else f1 &&& 0xfd

/-- PObj per-flag setter family: `set F(v)` is `flags |= mask` when `v` is
truthy, else `flags = (flags & ~mask) | 32`. -/
def setFlag (flags mask : Nat) (v : Bool) : Nat :=
  if v then flags ||| mask else (flags &&& (4294967295 - mask)) ||| 32

/-- PObj getter C: `(flags & 1) > 0`. -/
def Pc (flags : Nat) : Bool := decide (0 < flags &&& 1)

/-- PObj getter D: `(flags & 8) > 0`. -/
def Pd (flags : Nat) : Bool := decide (0 < flags &&& 8)

/-- getTwosComplement: converts an 8-bit value to its signed equivalent;
`if (v & 128) return -(((~v) & 0xff) + 1) else v` (32-bit bitwise ops). -/
def getTwosComplement (v : Int) : Int :=
  if 0 < toUint32 v &&& 128 then -(((toUint32 (jsNot v) &&& 255 : Nat) : Int) + 1)
  else v

/-- bcd: decodes a packed binary-coded-decimal byte,
`(b & 15) + (((b >>> 4) & 15) * 10)`. -/
def bcd (b : Nat) : Nat := (b &&& 15) + (((b >>> 4) &&& 15) * 10)

/-- stackObj.push: write the value at `0x100 + SP`, decrement SP and wrap
below 0 back to 0xFF. -/
def push (s : MachineState) (val : Nat) : MachineState :=
  { s with
    mem := writeByteMem s.mem val (256 + s.sp)
    sp := if s.sp = 0 then 255 else s.sp - 1 }

/-- stackObj.pull: increment SP (wrapping above 0xFF to 0), then read the
cell at `0x100 + SP`. -/
def pull (s : MachineState) : Option Nat × MachineState :=
  let sp1 := if s.sp + 1 > 255 then 0 else s.sp + 1
  (s.mem (256 + sp1), { s with sp := sp1 })

/-- executeInstruction case 0x69, ADC Immediate, including the decimal
(BCD) branch taken when the D flag is set.  Returns `none` when the
operand cell is undefined (the source would propagate NaN). -/
def adcImmStep (s : MachineState) : Option MachineState :=
  match s.mem (s.pc + 1) with
  | none => none
  | some b =>
    let carryIn : Nat := if Pc s.flags then 1 else 0
    let binarySum : Nat := s.a + b + carryIn
    let f1 := setZN s.flags ((binarySum &&& 255 : Nat) : Int)
    if Pd s.flags then
      let al0 : Nat := (s.a &&& 0x0f) + (b &&& 0x0f) + carryIn
      let al : Nat := if al0 ≥ 0x0a then ((al0 + 0x06) &&& 0x0f) + 0x10 else al0
      let a1 : Nat := (s.a &&& 0xf0) + (b &&& 0xf0) + al
      let zna : Int :=
        getTwosComplement (a1 : Int) + getTwosComplement (b : Int) +
          getTwosComplement (al : Int)
      let f2 := if 0 < a1 &&& 128 then setBit f1 7 else clearBit f1 7
      let f3 := if zna < -128 ∨ zna > 127 then setBit f2 6 else clearBit f2 6
      let a2 : Nat := if a1 ≥ 0xa0 then a1 + 0x60 else a1
      let f4 := if a2 ≥ 0x100 then setBit f3 0 else clearBit f3 0
      some { s with a := a2 &&& 255, flags := f4, pc := s.pc + 2 }
    else
      let f2 :=
        if (s.a ^^^ b) &&& 128 = 0 ∧ 0 < (b ^^^ binarySum) &&& 128 then setBit f1 6
        else clearBit f1 6
      let f3 := if binarySum > 255 then setBit f2 0 else clearBit f2 0
      some { s with a := binarySum &&& 255, flags := f3, pc := s.pc + 2 }

/-- executeInstruction case 0x46, LSR Zero Page: clears N, moves bit 0 of
the operand into C, stores the shifted byte, and sets Z from the ORIGINAL
operand byte `b` (the source tests `b == 0`, not the shifted value). -/
def lsrZeroPageStep (s : MachineState) : Option MachineState :=
  match s.mem (s.pc + 1) with
  | none => none
  | some addr =>
    match s.mem addr with
    | none => none
    | some b =>
      let f1 := clearBit s.flags 7
      let f2 := if 0 < b &&& 1 then setBit f1 0 else clearBit f1 0
      let m1 := writeByteMem s.mem ((b >>> 1) &&& 127) addr
      let f3 := if b = 0 then setBit f2 1 else clearBit f2 1
      some { s with mem := m1, flags := f3, pc := s.pc + 2 }

/-- executeInstruction case 0xED, SBC Absolute, including the decimal
branch; the arm ends with `memory.PC += 2` in the source. -/
def sbcAbsStep (s : MachineState) : Option MachineState :=
  let addr := readWord s.mem (s.pc + 1)
  match s.mem addr with
  | none => none
  | some b =>
    let borrow : Int := if Pc s.flags then 0 else 1
    let binaryDiff : Int := (s.a : Int) - b - borrow
    let f1 := setZN s.flags binaryDiff
    let twos : Int := getTwosComplement (s.a : Int) - getTwosComplement (b : Int) - borrow
    let f2 := if twos < -128 ∨ twos > 127 then setBit f1 6 else clearBit f1 6
    let aNew : Nat :=
      if Pd s.flags then
        let al0 : Int := ((s.a &&& 0x0f : Nat) : Int) - ((b &&& 0x0f : Nat) : Int) - borrow
        let al : Int := if al0 < 0 then (al0 - 0x06) % 16 - 0x10 else al0
        let a1 : Int := ((s.a &&& 0xf0 : Nat) : Int) - ((b &&& 0xf0 : Nat) : Int) + al
        let a2 : Int := if a1 < 0 then a1 - 0x60 else a1
        (a2 % 256).toNat
      else (binaryDiff % 256).toNat
    let f3 := if binaryDiff ≥ 0 then setBit f2 0 else clearBit f2 0
    some { s with a := aNew, flags := f3, pc := s.pc + 2 }

/-- executeInstruction case 0xE9, SBC Immediate (operand follows the
opcode); the arm ends with `memory.PC += 2`. -/
def sbcImmStep (s : MachineState) : Option MachineState :=
  match s.mem (s.pc + 1) with
  | none => none
  | some b =>
    let borrow : Int := if Pc s.flags then 0 else 1
    let binaryDiff : Int := (s.a : Int) - b - borrow
    let f1 := setZN s.flags binaryDiff
    let twos : Int := getTwosComplement (s.a : Int) - getTwosComplement (b : Int) - borrow
    let f2 := if twos < -128 ∨ twos > 127 then setBit f1 6 else clearBit f1 6
    let aNew : Nat :=
      if Pd s.flags then
        let al0 : Int := ((s.a &&& 0x0f : Nat) : Int) - ((b &&& 0x0f : Nat) : Int) - borrow
        let al : Int := if al0 < 0 then (al0 - 0x06) % 16 - 0x10 else al0
        let a1 : Int := ((s.a &&& 0xf0 : Nat) : Int) - ((b &&& 0xf0 : Nat) : Int) + al
        let a2 : Int := if a1 < 0 then a1 - 0x60 else a1
        (a2 % 256).toNat
      else (binaryDiff % 256).toNat
    let f3 := if binaryDiff ≥ 0 then setBit f2 0 else clearBit f2 0
    some { s with a := aNew, flags := f3, pc := s.pc + 2 }

/-- executeInstruction case 0x20, JSR: push the high then the low byte of
`PC + 2`, then load PC from the word operand. -/
def jsrStep (s : MachineState) : MachineState :=
  let s1 := push s (((s.pc + 2) >>> 8) &&& 0xff)
  let s2 := push s1 ((s.pc + 2) &&& 0xff)
  { s2 with pc := readWord s2.mem (s.pc + 1) }

/-- executeInstruction case 0x60, RTS:
`memory.PC = (stack.pull() | (stack.pull() << 8)) + 1` (the first pull is
the low byte; `|` coerces an undefined cell to 0). -/
def rtsStep (s : MachineState) : MachineState :=
  let (lo, s1) := pull s
  let (hi, s2) := pull s1
  { s2 with pc := (toNum lo ||| (toNum hi <<< 8)) + 1 }

/-- executeInstruction case 0x08, PHP: pushes the flags byte exactly as it
is (`stack.push(P.getFlags())`, no bit is forced), then `PC += 1`. -/
def phpStep (s : MachineState) : MachineState :=
  let s1 := push s s.flags
  { s1 with pc := s1.pc + 1 }

/-- executeInstruction case 0x28, PLP: pulls a byte and installs it as the
whole flags byte via setFlagsTo; returns `none` if the pulled cell is
undefined. -/
def plpStep (s : MachineState) : Option MachineState :=
  match pull s with
  | (none, _) => none
  | (some v, s1) => some { s1 with flags := setFlagsTo v, pc := s1.pc + 1 }

/-- The brkInterrupt push-and-vector sequence as it runs with an intact
memory object (the hardware keyboard/mouse interrupt path): push PC-high,
push PC-low, push `P.getFlags() | 16`, then PC from the vector at
0xFFFE/0xFFFF.  The I flag is never modified. -/
def brkInterruptPushes (s : MachineState) : MachineState :=
  let s1 := push s ((s.pc >>> 8) &&& 255)
  let s2 := push s1 (s.pc &&& 255)
  let s3 := push s2 (s.flags ||| 16)
  { s3 with pc := toNum (s3.mem 65534) ||| (toNum (s3.mem 65535) <<< 8) }

/-- window.onkeydown, maskable-interrupt path (toggle on, I clear): write
the key code to 0x06E0, then run brkInterrupt. -/
def keyboardInterrupt (s : MachineState) (keyCode : Nat) : MachineState :=
  brkInterruptPushes { s with mem := writeByteMem s.mem keyCode 0x6e0 }

/-- Outcome of executeInstruction case 0x00 (BRK) as written in the
source: the arm executes `memory = memory.PC + 2`, REPLACING the global
memory object by the number PC+2, then calls brkInterrupt and returns
false.  the deferred pushes of brkInterrupt read `memory.PC` (now `undefined`
on a number) and call `memory.writeByte`, which no longer exists, so they
throw a TypeError before any state change: no byte is pushed, no vector is
loaded, and the flags (in particular the I bit) are left untouched. -/
structure BrkArmResult where
  memoryBinding : Nat
  flags : Nat
  sp : Nat
  halted : Bool

/-- executeInstruction case 0x00 (BRK), modelled faithfully: the global
memory binding becomes the number `PC + 2`, the flags and stack pointer
are unchanged (the deferred pushes crash), and the arm returns false. -/
def brkStep (s : MachineState) : BrkArmResult :=
  { memoryBinding := s.pc + 2, flags := s.flags, sp := s.sp, halted := true }

/-- Reset-vector check of execute(): read the word at 0xFFFC and start
there when it is non-zero, else at the default 0x0800. -/
def resetVectorPc (m : Mem) : Nat :=
  let resetHandler := readWord m 0xfffc
  if resetHandler > 0 then resetHandler else 0x800

/-- assembleProgram pass-2 loop body for one branchTracker entry whose
label is defined and resolves to address `v`; `operandAddr` is the
recorded emit address of the branch operand byte.  Raises error #3 when
the displacement is out of range, otherwise yields the byte written
(negative displacements go through `(((~(-d)) + 1) & 0xff) | 128`). -/
def resolveBranch (v operandAddr : Nat) : Except Nat Nat :=
  let distance : Int := (v : Int) - operandAddr - 1
  if distance > 127 ∨ distance < -128 then Except.error 3
  else
    Except.ok
      (if distance < 0 then ((jsNot (-distance) + 1) % 256).toNat ||| 128
       else distance.toNat)

/-- Numeric-literal bases of the assembler: decimal (no marker), hex (the
dollar marker), binary (the percent marker). -/
inductive NumBase
  | dec
  | hex
  | bin
deriving DecidableEq

/-- Digit radix of each base. -/
def radix : NumBase → Nat
  | NumBase.dec => 10
  | NumBase.hex => 16
  | NumBase.bin => 2

/-- Abstraction of an assembler numeric-literal string: its base (read off
the one-character base marker) and its digit values in order.  addValue
inspects exactly two features of the string: its parsed value and its
length (digit count, plus one for the base marker when present). -/
structure NumStr where
  base : NumBase
  digits : List Nat

/-- parseInt of a literal in its own radix. -/
def litValue (l : NumStr) : Nat :=
  l.digits.foldl (fun acc d => acc * radix l.base + d) 0

/-- The addValue mask-widening test, which reads the FIRST argument only:
`i.length > 3` for hex (more than two digits after the dollar marker),
`i.length > 9` for binary (more than eight digits), and
`parseInt(i,10) > 255` for decimal. -/
def wideMask (i : NumStr) : Bool :=
  match i.base with
  | NumBase.hex => decide (i.digits.length > 2)
  | NumBase.bin => decide (i.digits.length > 8)
  | NumBase.dec => decide (litValue i > 255)

/-- Spec wording of the phrase that the value of an operand visibly exceeds 0xFF: more than
two hex digits, more than eight binary digits, or a decimal value above
255. -/
def visiblyExceedsFF (l : NumStr) : Bool :=
  match l.base with
  | NumBase.hex => decide (l.digits.length > 2)
  | NumBase.bin => decide (l.digits.length > 8)
  | NumBase.dec => decide (litValue l > 255)

/-- Observable content of the string addValue returns: its base marker and
its parsed numeric value. -/
structure NumOut where
  base : NumBase
  val : Nat

/-- addValue(i, v) for a literal (or resolved-constant) first argument and
a second argument of the form sign-literal-or-constant (`neg` is the sign,
`s` the resolved literal): computes `(parseInt(i) + v) & w` where `w` is
255, widened to 65535 by `wideMask`, and renders the result in the base of i.
JavaScript `& w` on the possibly negative 32-bit sum is `emod` by `w+1`. -/
def addValue (i : NumStr) (neg : Bool) (s : NumStr) : NumOut :=
  let vv : Int := (litValue s : Int) * (if neg then -1 else 1)
  let w : Nat := if wideMask i then 65535 else 255
  { base := i.base
    val := (((litValue i : Int) + vv) % ((w : Int) + 1)).toNat }

/-! Concrete states used to evaluate the model on explicit inputs. -/

/-- State about to execute SBC Absolute (`SBC $1234` at 0x0800) with a
defined operand byte. -/
def sbcDemoState : MachineState :=
  { mem := fun c =>
      if c = 0x800 then some 0xed
      else if c = 0x801 then some 0x34
      else if c = 0x802 then some 0x12
      else if c = 0x1234 then some 5
      else none
    pc := 0x800, a := 9, x := 0, y := 0, sp := 255, flags := 37 }

/-- State about to execute `LSR $10` with the operand cell holding 1. -/
def lsrDemoState : MachineState :=
  { mem := fun c =>
      if c = 0x800 then some 0x46
      else if c = 0x801 then some 0x10
      else if c = 0x10 then some 1
      else none
    pc := 0x800, a := 0, x := 0, y := 0, sp := 255, flags := 36 }

/-- State reached by `LDA #$99 SED CLC` from reset (A = 0x99, P = 172:
N, bit 5, D, I set, C and Z clear), about to execute `ADC #$01`. -/
def adcDecimalDemoState : MachineState :=
  { mem := fun c =>
      if c = 0x800 then some 0x69
      else if c = 0x801 then some 1
      else none
    pc := 0x800, a := 0x99, x := 0, y := 0, sp := 255, flags := 172 }

/-- State about to execute BRK with the I flag clear (P = 32). -/
def brkDemoState : MachineState :=
  { mem := fun c => if c = 0x800 then some 0 else none
    pc := 0x800, a := 0, x := 0, y := 0, sp := 255, flags := 32 }

/-- State with the power-on flags (P = 36, whose B bit is 0), used for the
PHP / hardware-interrupt push comparison. -/
def phpDemoState : MachineState :=
  { mem := fun _ => none
    pc := 0x800, a := 0, x := 0, y := 0, sp := 255, flags := 36 }

/-- State about to execute PLP with the byte 0 on top of the stack. -/
def plpDemoState : MachineState :=
  { mem := fun c => if c = 0x1ff then some 0 else none
    pc := 0x800, a := 0, x := 0, y := 0, sp := 254, flags := 36 }

/-- State about to execute JSR at PC = 0xFFFE, where `PC + 2` no longer
fits in 16 bits. -/
def jsrWrapDemoState : MachineState :=
  { mem := fun _ => none
    pc := 0xfffe, a := 0, x := 0, y := 0, sp := 255, flags := 36 }

/-- State about to execute JSR at an ordinary PC. -/
def jsrDemoState : MachineState :=
  { mem := fun c =>
      if c = 0x801 then some 0x00
      else if c = 0x802 then some 0x90
      else none
    pc := 0x800, a := 0, x := 0, y := 0, sp := 255, flags := 36 }

/-- State about to execute `ADC #$25` in decimal mode with A = 0x17,
C clear (P = 44: bit 5, D, I). -/
def adcBcdDemoState : MachineState :=
  { mem := fun c =>
      if c = 0x800 then some 0x69
      else if c = 0x801 then some 0x25
      else none
    pc := 0x800, a := 0x17, x := 0, y := 0, sp := 255, flags := 44 }

/-- State adcImmStep produces from adcBcdDemoState: A = 0x42, flags
unchanged at 44 (carry stays clear), PC advanced to 0x0802. -/
def adcBcdDemoOut : MachineState :=
  { adcBcdDemoState with a := 0x42, flags := 44, pc := 0x802 }

/-- Hex literal `$10`. -/
def hexTen : NumStr := { base := NumBase.hex, digits := [1, 0] }

/-- Hex literal `$200`, whose value 512 visibly exceeds 0xFF. -/
def hexTwoHundred : NumStr := { base := NumBase.hex, digits := [2, 0, 0] }

/-! Bridging lemmas between the bitwise operations of the source and
ordinary arithmetic. -/

theorem land_mod_256 (x : Nat) : x &&& 255 = x % 256 := by
  have h := Nat.and_pow_two_sub_one_eq_mod x 8
  simpa using h

theorem land_mod_16 (x : Nat) : x &&& 15 = x % 16 := by
  have h := Nat.and_pow_two_sub_one_eq_mod x 4
  simpa using h

theorem shiftRight_4 (x : Nat) : x >>> 4 = x / 16 := by
  have h := Nat.shiftRight_eq_div_pow x 4
  simpa using h

theorem shiftRight_8 (x : Nat) : x >>> 8 = x / 256 := by
  have h := Nat.shiftRight_eq_div_pow x 8
  simpa using h

set_option maxRecDepth 4096 in
theorem land_240 (x : Nat) (h : x < 256) : x &&& 240 = x / 16 * 16 := by
  revert h
  revert x
  decide

/-- Splitting a 16-bit value into its low byte and its shifted high byte
and recombining them with bitwise-or restores the value. -/
theorem low_or_high_shift (x : Nat) (h : x < 65536) :
    (x &&& 255) ||| (((x >>> 8) &&& 255) <<< 8) = x := by
  apply Nat.eq_of_testBit_eq
  intro i
  have h255 : (255 : Nat) = 2 ^ 8 - 1 := by norm_num
  rw [Nat.testBit_or, Nat.testBit_and, Nat.testBit_shiftLeft, Nat.testBit_and,
    Nat.testBit_shiftRight, h255, Nat.testBit_two_pow_sub_one, Nat.testBit_two_pow_sub_one]
  rcases Nat.lt_or_ge i 8 with hi | hi
  · have d1 : decide (i < 8) = true := by simp only [decide_eq_true_eq]; omega
    have d2 : decide (i ≥ 8) = false := by simp only [decide_eq_false_iff_not]; omega
    rw [d1, d2]
    simp
  · rcases Nat.lt_or_ge i 16 with hi16 | hi16
    · have d1 : decide (i < 8) = false := by simp only [decide_eq_false_iff_not]; omega
      have d2 : decide (i ≥ 8) = true := by simp only [decide_eq_true_eq]; omega
      have h2 : 8 + (i - 8) = i := by omega
      have d3 : decide (i - 8 < 8) = true := by simp only [decide_eq_true_eq]; omega
      rw [d1, d2, h2, d3]
      simp
    · have hbig : x.testBit i = false := by
        apply Nat.testBit_lt_two_pow
        calc x < 65536 := h
        _ ≤ 2 ^ i := by
          have he : (65536 : Nat) = 2 ^ 16 := by norm_num
          rw [he]
          exact Nat.pow_le_pow_right (by norm_num) hi16
      have d1 : decide (i < 8) = false := by simp only [decide_eq_false_iff_not]; omega
      have d3 : decide (i - 8 < 8) = false := by simp only [decide_eq_false_iff_not]; omega
      have h2 : 8 + (i - 8) = i := by omega
      rw [d1, h2, d3, hbig]
      simp

/-- The carry-in the source computes from the C getter equals the raw C
bit of the flags byte. -/
theorem carry_bit_eq (flags : Nat) : (if Pc flags then 1 else 0) = flags &&& 1 := by
  have hle : flags &&& 1 ≤ 1 := Nat.and_le_right
  unfold Pc
  rcases Nat.eq_zero_or_pos (flags &&& 1) with h | h
  · simp [h]
  · have h1 : flags &&& 1 = 1 := by omega
    simp [h1]

set_option maxRecDepth 4096 in
theorem or_128_high : ∀ x < 256, 128 ≤ x → x ||| 128 = x := by decide

/-- C10: the 16-bit read at 0xFFFC returns 0 when both vector cells hold
the undefined marker, exactly as when a zero vector has been written
there, and in both cases the reset sequence starts the program at the
default 0x0800. -/
theorem unwritten_reset_vector (m : Mem)
    (h1 : m 0xfffc = none) (h2 : m 0xfffd = none) :
    readWord m 0xfffc = 0 ∧
    readWord (writeWordMem m 0 0xfffc) 0xfffc = 0 ∧
    resetVectorPc m = 0x800 ∧
    resetVectorPc (writeWordMem m 0 0xfffc) = 0x800 := by
  have e1 : readWord m 0xfffc = 0 := by
    unfold readWord
    have hstep : (0xfffc : Nat) + 1 = 0xfffd := by norm_num
    rw [hstep, h1, h2]
    rfl
  have e2 : readWord (writeWordMem m 0 0xfffc) 0xfffc = 0 := by
    simp [readWord, writeWordMem, toNum]
  refine ⟨e1, e2, ?_, ?_⟩
  · simp [resetVectorPc, e1]
  · simp [resetVectorPc, e2]

/-- Witness for C10 at the all-undefined memory image. -/
theorem unwritten_reset_vector_witness :
    readWord (fun _ => none : Mem) 0xfffc = 0 ∧
    readWord (writeWordMem (fun _ => none : Mem) 0 0xfffc) 0xfffc = 0 ∧
    resetVectorPc (fun _ => none : Mem) = 0x800 ∧
    resetVectorPc (writeWordMem (fun _ => none : Mem) 0 0xfffc) = 0x800 :=
  unwritten_reset_vector (fun _ => none : Mem) rfl rfl

/-- C8: the pass-2 branch fixup raises error #3 exactly when the
displacement target − (operand address + 1) lies outside [−128, 127]; in
range it yields the displacement byte, a negative displacement as its
twos-complement byte. -/
theorem branch_fixup (v addr : Nat) :
    (resolveBranch v addr = Except.error 3 ↔
      ((v : Int) - addr - 1 > 127 ∨ (v : Int) - addr - 1 < -128)) ∧
    (-128 ≤ (v : Int) - addr - 1 → (v : Int) - addr - 1 ≤ 127 →
      resolveBranch v addr =
        Except.ok (if 0 ≤ (v : Int) - addr - 1
          then ((v : Int) - addr - 1).toNat
          else (256 + ((v : Int) - addr - 1)).toNat)) := by
  unfold resolveBranch
  by_cases hr : ((v : Int) - addr - 1 > 127 ∨ (v : Int) - addr - 1 < -128)
  · rw [if_pos hr]
    refine ⟨⟨fun _ => hr, fun _ => rfl⟩, ?_⟩
    intro hlo hhi
    exfalso
    rcases hr with hr | hr <;> omega
  · rw [if_neg hr]
    constructor
    · constructor
      · intro hcontra
        exact absurd hcontra (by simp)
      · intro hor
        exact absurd hor hr
    · intro hlo hhi
      congr 1
      by_cases hneg : (v : Int) - addr - 1 < 0
      · rw [if_pos hneg, if_neg (by omega)]
        unfold jsNot
        rw [show - -((v : Int) - addr - 1) - 1 + 1 = (v : Int) - addr - 1 by ring]
        have he : ((v : Int) - addr - 1) % 256 = 256 + ((v : Int) - addr - 1) := by
          omega
        rw [he]
        apply or_128_high <;> omega
      · rw [if_neg hneg, if_pos (by omega)]

/-- Witness for C8: BNE back over five bytes encodes as 0xFA. -/
theorem branch_fixup_witness :
    resolveBranch 32768 32773 =
      Except.ok (if 0 ≤ (32768 : Int) - 32773 - 1
        then ((32768 : Int) - 32773 - 1).toNat
        else (256 + ((32768 : Int) - 32773 - 1)).toNat) :=
  (branch_fixup 32768 32773).2 (by decide) (by decide)

/-- C1 (code bug): the BRK arm of executeInstruction replaces the global
memory binding with the NUMBER PC + 2: at the demo state the binding
becomes 0x0802, the stack pointer is untouched (the deferred pushes crash
with a TypeError), and the I flag — clear beforehand — is still clear,
where the claim requires three stack pushes, I set, and a vector load. -/
theorem brk_arm_diverges :
    (brkStep brkDemoState).memoryBinding = 0x802 ∧
    (brkStep brkDemoState).sp = brkDemoState.sp ∧
    (brkStep brkDemoState).flags.testBit 2 = false := by
  refine ⟨rfl, rfl, by decide⟩

/-- C2 (code bug): LSR on a memory operand holding 1 produces the result
byte 0 yet leaves Z clear (the source tests the ORIGINAL byte), and the
decimal-mode run of LDA #$99 SED CLC ADC #$01 ends with A = 0 yet Z clear
(the source sets Z from the binary sum 0x9A), refuting Z iff result = 0. -/
theorem z_flag_divergence :
    ((lsrZeroPageStep lsrDemoState).map (fun t => (t.mem 0x10, Nat.testBit t.flags 1)) =
      some (some 0, false)) ∧
    ((adcImmStep adcDecimalDemoState).map (fun t => (t.a, Nat.testBit t.flags 1)) =
      some (0, false)) := by
  constructor <;> rfl

/-- C3 (code bug): the SBC Absolute arm (opcode 0xED) advances PC by 2,
not by the 3 the claim requires for absolute modes. -/
theorem sbc_abs_pc_advance :
    (sbcAbsStep sbcDemoState).map MachineState.pc = some (sbcDemoState.pc + 2) ∧
    sbcDemoState.pc + 2 ≠ sbcDemoState.pc + 3 := by
  constructor
  · rfl
  · decide

/-- C4 counterexample: PHP pushes the flags byte unchanged, so from the
power-on flags 36 the pushed saved-P byte has its B bit (bit 4) equal to
0, not 1 as claimed; while a hardware keyboard interrupt pushes P | 16
(here 52), whose B bit is 1, not 0 as claimed. -/
theorem php_pushes_b_clear :
    ((phpStep phpDemoState).mem (256 + phpDemoState.sp) = some 36 ∧
      Nat.testBit 36 4 = false) ∧
    ((keyboardInterrupt phpDemoState 65).mem 0x1fd = some 52 ∧
      Nat.testBit 52 4 = true) := by
  refine ⟨⟨rfl, by decide⟩, rfl, by decide⟩

/-- C4 (amended): the saved-P byte pushed by brkInterrupt — the routine
used by both the software BRK path and the hardware keyboard/mouse
interrupts — is P | 16, whose B bit (bit 4) is always 1; PHP pushes P
unchanged, so its pushed B bit is whatever P currently holds. -/
theorem b_bit_push_amended (s : MachineState) (k : Nat)
    (h2 : 2 ≤ s.sp) (h255 : s.sp ≤ 255) :
    (keyboardInterrupt s k).mem (256 + (s.sp - 2)) = some ((s.flags ||| 16) &&& 255) ∧
    Nat.testBit ((s.flags ||| 16) &&& 255) 4 = true ∧
    (phpStep s).mem (256 + s.sp) = some (s.flags &&& 255) := by
  have h0 : ¬ (s.sp = 0) := by omega
  have h1 : ¬ (s.sp - 1 = 0) := by omega
  have h12 : s.sp - 1 - 1 = s.sp - 2 := by omega
  refine ⟨?_, ?_, ?_⟩
  · simp only [keyboardInterrupt, brkInterruptPushes, push, writeByteMem,
      if_neg h0, if_neg h1, h12]
    simp
  · rw [Nat.testBit_and, Nat.testBit_or]
    have hb16 : Nat.testBit 16 4 = true := by decide
    have hb255 : Nat.testBit 255 4 = true := by decide
    rw [hb16, hb255]
    simp
  · simp only [phpStep, push, writeByteMem]
    simp

/-- Witness for the amended C4 statement at the power-on flags. -/
theorem b_bit_push_amended_witness :
    (keyboardInterrupt phpDemoState 65).mem (256 + (phpDemoState.sp - 2)) =
      some ((phpDemoState.flags ||| 16) &&& 255) ∧
    Nat.testBit ((phpDemoState.flags ||| 16) &&& 255) 4 = true ∧
    (phpStep phpDemoState).mem (256 + phpDemoState.sp) =
      some (phpDemoState.flags &&& 255) :=
  b_bit_push_amended phpDemoState 65 (by decide) (by decide)

/-- C5 counterexample: PLP installs the pulled byte verbatim through
setFlagsTo; pulling the byte 0 leaves P = 0, whose bit 5 is 0, refuting
the claim that bit 5 is 1 after every listed flag mutation including the
setFlagsTo used by PLP and RTI. -/
theorem plp_clears_bit5 :
    (plpStep plpDemoState).map (fun t => Nat.testBit t.flags 5) = some false := by
  rfl

/-- C5 (amended): bit 5 of P is 1 after reset and after every per-flag
clear (the setter family ORs in 32 on its false branch); setBit, the
per-flag sets, setZN, and clearBit of a bit other than 5 preserve an
already-set bit 5; setFlagsTo — the PLP/RTI path — installs its argument
verbatim and therefore need not leave bit 5 set. -/
theorem flag_ops_bit5 :
    Nat.testBit flagsReset 5 = true ∧
    (∀ flags mask, Nat.testBit (setFlag flags mask false) 5 = true) ∧
    (∀ flags mask, Nat.testBit flags 5 = true →
      Nat.testBit (setFlag flags mask true) 5 = true) ∧
    (∀ flags v, Nat.testBit flags 5 = true → Nat.testBit (setBit flags v) 5 = true) ∧
    (∀ flags v, Nat.testBit flags 5 = true → v ≠ 5 →
      Nat.testBit (clearBit flags v) 5 = true) ∧
    (∀ flags v, Nat.testBit flags 5 = true → Nat.testBit (setZN flags v) 5 = true) ∧
    (∀ v, setFlagsTo v = v) := by
  have h32 : Nat.testBit 32 5 = true := by decide
  have h7f : Nat.testBit 0x7f 5 = true := by decide
  have hfd : Nat.testBit 0xfd 5 = true := by decide
  refine ⟨by decide, ?_, ?_, ?_, ?_, ?_, fun _ => rfl⟩
  · intro flags mask
    simp [setFlag, Nat.testBit_or, h32]
  · intro flags mask h
    simp [setFlag, Nat.testBit_or, h]
  · intro flags v h
    unfold setBit
    split
    · exact h
    · simp [Nat.testBit_or, h]
  · intro flags v h hv
    unfold clearBit
    split
    · exact h
    · rename_i hle
      rw [Nat.testBit_and, h]
      have hv7 : v ≤ 7 := by omega
      interval_cases v <;> first | exact absurd rfl hv | decide
  · intro flags v h
    have h160 : Nat.testBit 0xa0 5 = true := by decide
    have hbase :
        Nat.testBit (if 0 < toUint32 v &&& 128 then flags ||| 0xa0 else flags &&& 0x7f) 5 =
          true := by
      split
      · rw [Nat.testBit_or, h160]
        simp
      · rw [Nat.testBit_and, h, h7f]
        rfl
    simp only [setZN]
    by_cases hz : v = 0
    · rw [if_pos hz, Nat.testBit_or, hbase]
      rfl
    · rw [if_neg hz, Nat.testBit_and, hbase, hfd]
      rfl

/-- Witness for the amended C5 statement: setZN and clearBit applied at the
reset flags keep bit 5 set. -/
theorem flag_ops_bit5_witness :
    Nat.testBit (setZN flagsReset 0) 5 = true ∧
    Nat.testBit (clearBit flagsReset 0) 5 = true :=
  ⟨flag_ops_bit5.2.2.2.2.2.1 flagsReset 0 (by decide),
   flag_ops_bit5.2.2.2.2.1 flagsReset 0 (by decide) (by decide)⟩

/-- Two pushes followed by two pulls return the pushed bytes in reverse
order and restore the stack pointer, for every byte-valued SP, the wrap
at both ends included. -/
theorem stack_roundtrip (s : MachineState) (v1 v2 : Nat) (hsp : s.sp ≤ 255) :
    (pull (push (push s v1) v2)).1 = some (v2 &&& 255) ∧
    (pull (pull (push (push s v1) v2)).2).1 = some (v1 &&& 255) ∧
    (pull (pull (push (push s v1) v2)).2).2.sp = s.sp := by
  by_cases h0 : s.sp = 0
  · simp [push, pull, writeByteMem, h0]
  · by_cases h1 : s.sp = 1
    · simp [push, pull, writeByteMem, h0, h1]
    · have e1 : ¬ (s.sp - 1 = 0) := by omega
      have f1 : s.sp - 1 - 1 + 1 = s.sp - 1 := by omega
      have e3 : s.sp - 1 + 1 = s.sp := by omega
      have n1 : ¬ (255 < s.sp - 1) := by omega
      have n2 : ¬ (255 < s.sp) := by omega
      have e6 : 256 + s.sp ≠ 256 + (s.sp - 1) := by omega
      simp [push, pull, writeByteMem, h0, h1, e1, f1, e3, n1, n2, e6]

/-- Changing only the PC of a state commutes with pull, which never
reads or writes the PC. -/
theorem pull_set_pc (s : MachineState) (L : Nat) :
    pull { s with pc := L } = ((pull s).1, { (pull s).2 with pc := L }) := rfl

/-- rtsStep on a state whose PC was just redirected, written through the
two pulls it performs. -/
theorem rtsStep_eq (X : MachineState) (L : Nat) :
    rtsStep { X with pc := L } =
      { (pull (pull X).2).2 with
        pc := (toNum (pull X).1 ||| (toNum (pull (pull X).2).1 <<< 8)) + 1 } := rfl

/-- Masking a byte mask twice is the same as masking once. -/
theorem double_mask_255 (x : Nat) : x &&& 255 &&& 255 = x &&& 255 := by
  rw [land_mod_256, land_mod_256]
  omega

/-- C7 (amended): for every state whose PC is at most 0xFFFD — so the
pushed return address PC+2 still fits in 16 bits — and whose SP is a
byte, JSR followed by RTS on the freshly pushed bytes leaves PC at
p + 3 and restores SP; at PC = 0xFFFE or 0xFFFF the pushed bytes wrap
and the claim fails. -/
theorem jsr_rts_roundtrip (s : MachineState) (hpc : s.pc ≤ 0xfffd) (hsp : s.sp ≤ 255) :
    (rtsStep (jsrStep s)).pc = s.pc + 3 ∧
    (rtsStep (jsrStep s)).sp = s.sp := by
  obtain ⟨hlo, hhi, hsp2⟩ :=
    stack_roundtrip s (((s.pc + 2) >>> 8) &&& 255) ((s.pc + 2) &&& 255) hsp
  have hj : jsrStep s =
      { push (push s (((s.pc + 2) >>> 8) &&& 255)) ((s.pc + 2) &&& 255) with
        pc := readWord
          (push (push s (((s.pc + 2) >>> 8) &&& 255)) ((s.pc + 2) &&& 255)).mem
          (s.pc + 1) } := rfl
  rw [hj, rtsStep_eq]
  refine ⟨?_, hsp2⟩
  rw [hlo, hhi]
  show ((s.pc + 2) &&& 255 &&& 255 |||
    ((s.pc + 2) >>> 8 &&& 255 &&& 255) <<< 8) + 1 = s.pc + 3
  rw [double_mask_255, double_mask_255, low_or_high_shift (s.pc + 2) (by omega)]

/-- Witness for the amended C7 statement at PC = 0x0800. -/
theorem jsr_rts_roundtrip_witness :
    (rtsStep (jsrStep jsrDemoState)).pc = jsrDemoState.pc + 3 ∧
    (rtsStep (jsrStep jsrDemoState)).sp = jsrDemoState.sp :=
  jsr_rts_roundtrip jsrDemoState (by decide) (by decide)

/-- C7 counterexample: at p = 0xFFFE the pushed return address 0x10000
wraps to two zero bytes, so JSR then RTS leaves PC = 1, not p + 3. -/
theorem jsr_rts_wrap_cex :
    (rtsStep (jsrStep jsrWrapDemoState)).pc = 1 ∧
    jsrWrapDemoState.pc + 3 ≠ 1 := by
  constructor
  · rfl
  · decide

/-- C9 counterexample: addValue($10, +$200) masks with the width of the
FIRST operand only, returning $10 (value 16) rather than the 16-bit
masked sum $210 (value 528) that the claim requires, although the second
operand $200 visibly exceeds 0xFF. -/
theorem addvalue_mask_cex :
    (addValue hexTen false hexTwoHundred).val = 16 ∧
    visiblyExceedsFF hexTwoHundred = true ∧
    (addValue hexTen false hexTwoHundred).val ≠
      (litValue hexTen + litValue hexTwoHundred) % 65536 := by
  refine ⟨by decide, by decide, by decide⟩

/-- C9 (amended): addValue preserves the base marker of its first operand
and masks the (possibly negative) sum with a width read off the FIRST
operand alone — 16 bits when that operand visibly exceeds 0xFF (more
than two hex digits, more than eight binary digits, or a decimal value
above 255), 8 bits otherwise; the second operand never widens the mask. -/
theorem addvalue_amended (i : NumStr) (neg : Bool) (s : NumStr) :
    (addValue i neg s).base = i.base ∧
    (visiblyExceedsFF i = false → neg = false →
      (addValue i neg s).val = (litValue i + litValue s) % 256) ∧
    (visiblyExceedsFF i = true → neg = false →
      (addValue i neg s).val = (litValue i + litValue s) % 65536) ∧
    (neg = true →
      (addValue i neg s).val =
        (((litValue i : Int) - litValue s) %
          (if visiblyExceedsFF i then (65536 : Int) else 256)).toNat) := by
  have hw : wideMask i = visiblyExceedsFF i := by
    unfold wideMask visiblyExceedsFF
    rfl
  refine ⟨rfl, ?_, ?_, ?_⟩
  · intro h hn
    simp [addValue, hw, h, hn]
    omega
  · intro h hn
    simp [addValue, hw, h, hn]
    omega
  · intro hn
    by_cases h : visiblyExceedsFF i = true
    · simp [addValue, hw, h, hn]
      omega
    · simp [addValue, hw, eq_false_of_ne_true h, hn]
      omega

/-- Witness for the amended C9 statement on two narrow hex operands. -/
theorem addvalue_amended_witness :
    (addValue hexTen false hexTen).val = (litValue hexTen + litValue hexTen) % 256 :=
  (addvalue_amended hexTen false hexTen).2.1 (by decide) rfl

/-- setBit of bit 0 leaves bit 0 set. -/
theorem testBit0_setBit0 (f : Nat) : Nat.testBit (setBit f 0) 0 = true := by
  unfold setBit
  rw [if_neg (by omega), Nat.testBit_or]
  have h1 : Nat.testBit (2 ^ 0) 0 = true := by decide
  rw [h1]
  simp

/-- clearBit of bit 0 leaves bit 0 clear. -/
theorem testBit0_clearBit0 (f : Nat) : Nat.testBit (clearBit f 0) 0 = false := by
  unfold clearBit
  rw [if_neg (by omega), Nat.testBit_and]
  have h1 : Nat.testBit (4294967295 - 2 ^ 0) 0 = false := by decide
  rw [h1]
  simp

set_option maxHeartbeats 1600000 in
/-- C6: with the D flag set, ADC of two valid packed-BCD bytes under the
current carry leaves A holding the packed-BCD encoding of the decimal sum
modulo 100, and sets the C flag exactly when the decimal sum reaches
100. -/
theorem adc_decimal_bcd (s t : MachineState) (b : Nat)
    (hop : s.mem (s.pc + 1) = some b)
    (haLow : s.a &&& 15 ≤ 9) (haHigh : s.a >>> 4 ≤ 9)
    (hbLow : b &&& 15 ≤ 9) (hbHigh : b >>> 4 ≤ 9)
    (hd : Pd s.flags = true)
    (hstep : adcImmStep s = some t) :
    t.a = 16 * (((bcd s.a + bcd b + (s.flags &&& 1)) % 100) / 10) +
      ((bcd s.a + bcd b + (s.flags &&& 1)) % 100) % 10 ∧
    (Nat.testBit t.flags 0 = true ↔ 100 ≤ bcd s.a + bcd b + (s.flags &&& 1)) := by
  have haL : s.a % 16 ≤ 9 := by rw [land_mod_16] at haLow; exact haLow
  have haH : s.a / 16 ≤ 9 := by rw [shiftRight_4] at haHigh; exact haHigh
  have hbL : b % 16 ≤ 9 := by rw [land_mod_16] at hbLow; exact hbLow
  have hbH : b / 16 ≤ 9 := by rw [shiftRight_4] at hbHigh; exact hbHigh
  have hc : s.flags &&& 1 ≤ 1 := Nat.and_le_right
  have ha256 : s.a < 256 := by omega
  have hb256 : b < 256 := by omega
  simp only [adcImmStep, hop, hd, eq_self_iff_true, if_true, Option.some.injEq] at hstep
  subst hstep
  dsimp only
  rw [carry_bit_eq]
  have hbcdA : bcd s.a = s.a % 16 + s.a / 16 * 10 := by
    unfold bcd
    rw [land_mod_16, shiftRight_4, land_mod_16,
      Nat.mod_eq_of_lt (show s.a / 16 < 16 by omega)]
  have hbcdB : bcd b = b % 16 + b / 16 * 10 := by
    unfold bcd
    rw [land_mod_16, shiftRight_4, land_mod_16,
      Nat.mod_eq_of_lt (show b / 16 < 16 by omega)]
  obtain ⟨q, r, hqr, hrlt⟩ :
      ∃ q r, bcd s.a + bcd b + (s.flags &&& 1) = 100 * q + r ∧ r < 100 :=
    ⟨(bcd s.a + bcd b + (s.flags &&& 1)) / 100,
     (bcd s.a + bcd b + (s.flags &&& 1)) % 100, by omega, by omega⟩
  have hmod : (bcd s.a + bcd b + (s.flags &&& 1)) % 100 = r := by omega
  rw [hmod, apply_ite (fun f => Nat.testBit f 0), testBit0_setBit0, testBit0_clearBit0]
  simp only [land_mod_16, land_mod_256]
  rw [land_240 s.a ha256, land_240 b hb256]
  constructor
  · split_ifs <;>
      (try have e1 : (s.a % 16 + b % 16 + (s.flags &&& 1) + 6) % 16 =
        s.a % 16 + b % 16 + (s.flags &&& 1) - 10 := by omega
       try have hq1 : q = 1 := by omega
       try have hq0 : q = 0 := by omega
       try have e2a : (s.a / 16 * 16 + b / 16 * 16 +
          ((s.a % 16 + b % 16 + (s.flags &&& 1) + 6) % 16 + 16) + 96) % 256 =
          s.a / 16 * 16 + b / 16 * 16 +
          ((s.a % 16 + b % 16 + (s.flags &&& 1) + 6) % 16 + 16) + 96 - 256 := by omega
       try have e2b : (s.a / 16 * 16 + b / 16 * 16 +
          ((s.a % 16 + b % 16 + (s.flags &&& 1) + 6) % 16 + 16)) % 256 =
          s.a / 16 * 16 + b / 16 * 16 +
          ((s.a % 16 + b % 16 + (s.flags &&& 1) + 6) % 16 + 16) := by omega
       try have e2c : (s.a / 16 * 16 + b / 16 * 16 +
          (s.a % 16 + b % 16 + (s.flags &&& 1)) + 96) % 256 =
          s.a / 16 * 16 + b / 16 * 16 +
          (s.a % 16 + b % 16 + (s.flags &&& 1)) + 96 - 256 := by omega
       try have e2d : (s.a / 16 * 16 + b / 16 * 16 +
          (s.a % 16 + b % 16 + (s.flags &&& 1))) % 256 =
          s.a / 16 * 16 + b / 16 * 16 +
          (s.a % 16 + b % 16 + (s.flags &&& 1)) := by omega
       omega)
  · split_ifs <;>
      simp only [Bool.false_eq_true, false_iff, true_iff, eq_self_iff_true, not_le] <;>
      (try have e1 : (s.a % 16 + b % 16 + (s.flags &&& 1) + 6) % 16 =
        s.a % 16 + b % 16 + (s.flags &&& 1) - 10 := by omega
       omega)

/-- Witness for C6: 0x17 + 0x25 in decimal mode gives 0x42 with carry
clear. -/
theorem adc_decimal_bcd_witness :
    adcBcdDemoOut.a = 16 * (((bcd adcBcdDemoState.a + bcd 0x25 +
          (adcBcdDemoState.flags &&& 1)) % 100) / 10) +
        ((bcd adcBcdDemoState.a + bcd 0x25 +
          (adcBcdDemoState.flags &&& 1)) % 100) % 10 ∧
      (Nat.testBit adcBcdDemoOut.flags 0 = true ↔
        100 ≤ bcd adcBcdDemoState.a + bcd 0x25 + (adcBcdDemoState.flags &&& 1)) :=
  adc_decimal_bcd adcBcdDemoState adcBcdDemoOut 0x25 rfl (by decide) (by decide)
    (by decide) (by decide) (by decide) rfl

end Sim6502

